import Mathlib

/-!
Shallow embedding of the message-dispatch core of the Automated_WhatsApp_Sender
repository (whatsapp_sender.py, scheduler.py, contact_manager.py, config.py).

The external delivery channel (pywhatkit) is modelled by an oracle value
`ChannelResult`: either the channel call succeeds or it raises with a reason
string; the repository code catches every such exception.  The message log
(message_log.txt) is modelled as a list of `LogEntry` threaded through the
functions.  Strings are Lean strings; Python's character slicing and
str.replace are embedded over `List Char`.
-/

/-- config.py: DEFAULT_COUNTRY_CODE = "+91". -/
def DEFAULT_COUNTRY_CODE : String := "+91"

/-- Python `s.startswith("+")`: the first character is '+'. -/
def startsWithPlus (s : String) : Bool :=
  match s.toList with
  | [] => false
  | c :: _ => c == '+'

/-- whatsapp_sender.py lines 35-36 / scheduler.py lines 31-32: prepend the
configured country code unless the raw number already starts with '+'. -/
def normalizePhone (countryCode raw : String) : String :=
  if startsWithPlus raw then raw else countryCode ++ raw

/-- whatsapp_sender.py lines 41-47: target time is now plus two minutes, with
minute overflow carried into the hour (and no further handling). -/
def plusTwoMinutes (hour minute : Nat) : Nat × Nat :=
  if minute + 2 >= 60 then (hour + 1, minute + 2 - 60) else (hour, minute + 2)

/-- Outcome of one call into the external delivery channel: `ok`, or an
exception carrying `reason` (always caught by the repository code). -/
inductive ChannelResult where
  | ok
  | err (reason : String)
deriving DecidableEq

/-- One line of message_log.txt (timestamp elided): phone, status and the
truncated message, as written by log_message. -/
structure LogEntry where
  phone : String
  status : String
  message : String
deriving DecidableEq

/-- Python `message[:50]`: the first fifty characters. -/
def truncate50 (s : String) : String := (s.toList.take 50).asString

/-- whatsapp_sender.py lines 164-170: log_message appends one line with the
phone, the status and the message truncated to fifty characters. -/
def log_message (phone message status : String) (log : List LogEntry) : List LogEntry :=
  log ++ [⟨phone, status, truncate50 message ++ "..."⟩]

/-- whatsapp_sender.py lines 18-67: send_message normalizes the phone, invokes
the channel, and on either outcome writes exactly one log line — "SUCCESS" and
True on success, "FAILED: reason" and False when the channel raises. -/
def send_message (ch : ChannelResult) (countryCode phone message : String)
    (log : List LogEntry) : Bool × List LogEntry :=
  let phone2 := normalizePhone countryCode phone
  match ch with
  | ChannelResult.ok => (true, log_message phone2 message "SUCCESS" log)
  | ChannelResult.err e => (false, log_message phone2 message ("FAILED: " ++ e) log)

/-- One row of the contacts CSV as send_bulk_messages reads it: an optional
name (row.get with default) and a phone string. -/
structure Row where
  name : Option String
  phone : String
deriving DecidableEq

/-- One entry of results["details"]: name, phone and the literal status string
"success" or "failed" (whatsapp_sender.py lines 141-145). -/
structure Detail where
  name : String
  phone : String
  status : String
deriving DecidableEq

/-- The results dict of send_bulk_messages: success and failed counters plus
the ordered details list. -/
structure BulkResults where
  success : Nat
  failed : Nat
  details : List Detail
deriving DecidableEq

/-- results = {"success": 0, "failed": 0, "details": []} (line 115). -/
def emptyResults : BulkResults := ⟨0, 0, []⟩

/-- Python str.replace pat→rep, scanning left to right over the character
list, with explicit fuel (one unit per character examined); `fuel` at least
the length of the list makes it total. -/
def listReplaceFuel (pat rep : List Char) : Nat → List Char → List Char
  | 0, l => l
  | _ + 1, [] => []
  | fuel + 1, c :: cs =>
    if pat.isPrefixOf (c :: cs) && !pat.isEmpty then
      rep ++ listReplaceFuel pat rep fuel (cs.drop (pat.length - 1))
    else
      c :: listReplaceFuel pat rep fuel cs

/-- Python `s.replace(pat, rep)`: replace every non-overlapping occurrence of
`pat` in `s` by `rep`, left to right. -/
def pyReplace (s pat rep : String) : String :=
  (listReplaceFuel pat.toList rep.toList s.toList.length s.toList).asString

/-- Does `pat` occur as a contiguous subsequence of `l`? -/
def containsSeq (pat : List Char) : List Char → Bool
  | [] => pat.isEmpty
  | c :: cs => pat.isPrefixOf (c :: cs) || containsSeq pat cs

/-- Does the string still contain the "{name}" placeholder? -/
def hasNameToken (s : String) : Bool := containsSeq "{name}".toList s.toList

/-- whatsapp_sender.py lines 125-150: the loop body of send_bulk_messages.
For each row in order: resolve the display name (default "Friend"),
personalize the template when requested, call send_message, bump the matching
counter, and append one detail record. -/
def bulkLoop (countryCode message : String) (personalize : Bool)
    (ch : Nat → ChannelResult) :
    List Row → Nat → BulkResults → List LogEntry → BulkResults × List LogEntry
  | [], _, results, log => (results, log)
  | row :: rest, index, results, log =>
    let name := row.name.getD "Friend"
    let currentMessage := if personalize then pyReplace message "{name}" name else message
    let sent := send_message (ch index) countryCode row.phone currentMessage log
    let results2 :=
      if sent.1 then
        { results with success := results.success + 1,
                       details := results.details ++ [⟨name, row.phone, "success"⟩] }
      else
        { results with failed := results.failed + 1,
                       details := results.details ++ [⟨name, row.phone, "failed"⟩] }
    bulkLoop countryCode message personalize ch rest (index + 1) results2 sent.2

/-- whatsapp_sender.py lines 103-161: send_bulk_messages.  `loaded` is the
result of pd.read_csv — `none` when loading raises, in which case the except
branch returns the still-empty results dict; otherwise the loop runs over all
rows.  `ch` assigns each attempt (by position) its channel outcome. -/
def send_bulk_messages (loaded : Option (List Row)) (countryCode message : String)
    (personalize : Bool) (ch : Nat → ChannelResult) (log : List LogEntry) :
    BulkResults × List LogEntry :=
  match loaded with
  | none => (emptyResults, log)
  | some rows => bulkLoop countryCode message personalize ch rows 0 emptyResults log

/-- Helper: the phones of the accumulated details after the bulk loop are the
already-accumulated phones followed by the raw phones of the rows, in order. -/
theorem bulkLoop_details_phone (countryCode message : String) (personalize : Bool)
    (ch : Nat → ChannelResult) (rows : List Row) :
    ∀ (i : Nat) (acc : BulkResults) (log : List LogEntry),
      ((bulkLoop countryCode message personalize ch rows i acc log).1.details).map Detail.phone
        = acc.details.map Detail.phone ++ rows.map Row.phone := by
  induction rows with
  | nil => intro i acc log; simp [bulkLoop]
  | cons row rest ih =>
    intro i acc log
    cases h : ch i <;>
      simp [bulkLoop, send_message, h, ih]

/-- Helper: the names of the accumulated details are the resolved display
names of the rows (name if present, else "Friend"), in order. -/
theorem bulkLoop_details_name (countryCode message : String) (personalize : Bool)
    (ch : Nat → ChannelResult) (rows : List Row) :
    ∀ (i : Nat) (acc : BulkResults) (log : List LogEntry),
      ((bulkLoop countryCode message personalize ch rows i acc log).1.details).map Detail.name
        = acc.details.map Detail.name ++ rows.map (fun r => r.name.getD "Friend") := by
  induction rows with
  | nil => intro i acc log; simp [bulkLoop]
  | cons row rest ih =>
    intro i acc log
    cases h : ch i <;>
      simp [bulkLoop, send_message, h, ih]

/-- Helper: the two counters together grow by exactly one per row. -/
theorem bulkLoop_counts (countryCode message : String) (personalize : Bool)
    (ch : Nat → ChannelResult) (rows : List Row) :
    ∀ (i : Nat) (acc : BulkResults) (log : List LogEntry),
      (bulkLoop countryCode message personalize ch rows i acc log).1.success
          + (bulkLoop countryCode message personalize ch rows i acc log).1.failed
        = acc.success + acc.failed + rows.length := by
  induction rows with
  | nil => intro i acc log; simp [bulkLoop]
  | cons row rest ih =>
    intro i acc log
    cases h : ch i <;>
      simp [bulkLoop, send_message, h, ih] <;> omega

/-- Helper: each row contributes exactly one log line. -/
theorem bulkLoop_log_length (countryCode message : String) (personalize : Bool)
    (ch : Nat → ChannelResult) (rows : List Row) :
    ∀ (i : Nat) (acc : BulkResults) (log : List LogEntry),
      ((bulkLoop countryCode message personalize ch rows i acc log).2).length
        = log.length + rows.length := by
  induction rows with
  | nil => intro i acc log; simp [bulkLoop]
  | cons row rest ih =>
    intro i acc log
    cases h : ch i <;>
      simp [bulkLoop, send_message, log_message, h, ih] <;> omega

/-- Helper: the message texts written to the log are, in order, the truncated
personalized messages of the rows appended to the pre-existing log texts. -/
theorem bulkLoop_log_messages (countryCode message : String) (personalize : Bool)
    (ch : Nat → ChannelResult) (rows : List Row) :
    ∀ (i : Nat) (acc : BulkResults) (log : List LogEntry),
      ((bulkLoop countryCode message personalize ch rows i acc log).2).map LogEntry.message
        = log.map LogEntry.message
          ++ rows.map (fun r =>
              truncate50 (if personalize then pyReplace message "{name}" (r.name.getD "Friend")
                          else message) ++ "...") := by
  induction rows with
  | nil => intro i acc log; simp [bulkLoop]
  | cons row rest ih =>
    intro i acc log
    cases h : ch i <;>
      simp [bulkLoop, send_message, log_message, h, ih]

/-- One row of the contacts store (contact_manager.py): name, phone, group. -/
structure Contact where
  name : String
  phone : String
  group : String
deriving DecidableEq

/-- contact_manager.py lines 34-43: add_contact concatenates the new row onto
the store with no deduplication. -/
def add_contact (contacts : List Contact) (name phone grp : String) : List Contact :=
  contacts ++ [⟨name, phone, grp⟩]

/-- pandas drop_duplicates(subset=["phone"], keep="last"): keep a row exactly
when no later row has the same phone, preserving the order of kept rows. -/
def drop_duplicates_keep_last : List Contact → List Contact
  | [] => []
  | c :: cs =>
    if cs.any (fun d => d.phone == c.phone) then drop_duplicates_keep_last cs
    else c :: drop_duplicates_keep_last cs

/-- contact_manager.py lines 81-90: import_from_excel concatenates the
imported rows then drops phone duplicates keeping the last occurrence. -/
def import_from_excel (contacts newRows : List Contact) : List Contact :=
  drop_duplicates_keep_last (contacts ++ newRows)

/-- Helper: deduplication only ever keeps rows of the original list. -/
theorem mem_of_mem_dropDup : ∀ (l : List Contact) (x : Contact),
    x ∈ drop_duplicates_keep_last l → x ∈ l := by
  intro l
  induction l with
  | nil => intro x h; simp [drop_duplicates_keep_last] at h
  | cons c cs ih =>
    intro x h
    by_cases hc : cs.any (fun d => d.phone == c.phone) = true
    · rw [drop_duplicates_keep_last, if_pos hc] at h
      exact List.mem_cons_of_mem _ (ih x h)
    · rw [drop_duplicates_keep_last, if_neg hc] at h
      rcases List.mem_cons.mp h with h | h
      · simp [h]
      · exact List.mem_cons_of_mem _ (ih x h)

/-- Helper: after deduplication no two rows share a phone. -/
theorem dropDup_phone_nodup : ∀ l : List Contact,
    ((drop_duplicates_keep_last l).map Contact.phone).Nodup := by
  intro l
  induction l with
  | nil => simp [drop_duplicates_keep_last]
  | cons c cs ih =>
    by_cases hc : cs.any (fun d => d.phone == c.phone) = true
    · rw [drop_duplicates_keep_last, if_pos hc]; exact ih
    · rw [drop_duplicates_keep_last, if_neg hc]
      refine List.nodup_cons.mpr ⟨?_, ih⟩
      intro hmem
      rcases List.mem_map.mp hmem with ⟨d, hd, hphone⟩
      exact hc (List.any_eq_true.mpr ⟨d, mem_of_mem_dropDup cs d hd, by simp [hphone]⟩)

/-- Helper: looking up a phone after deduplication finds exactly the last
occurrence of that phone in the original list. -/
theorem dropDup_find_eq_getLast : ∀ (l : List Contact) (p : String),
    (drop_duplicates_keep_last l).find? (fun c => c.phone == p)
      = (l.filter (fun c => c.phone == p)).getLast? := by
  intro l
  induction l with
  | nil => intro p; rfl
  | cons c cs ih =>
    intro p
    by_cases hp : (c.phone == p) = true
    · have hpe : c.phone = p := by simpa using hp
      by_cases hc : cs.any (fun d => d.phone == c.phone) = true
      · rcases List.any_eq_true.mp hc with ⟨d, hd, hdp⟩
        have hdp2 : d.phone = c.phone := by simpa using hdp
        have hmem : d ∈ cs.filter (fun e => e.phone == p) := by
          simp [List.mem_filter, hd, hdp2, hpe]
        rw [drop_duplicates_keep_last, if_pos hc, List.filter_cons, if_pos hp, ih]
        cases hfe : cs.filter (fun e => e.phone == p) with
        | nil => rw [hfe] at hmem; simp at hmem
        | cons a as => rw [List.getLast?_cons_cons]
      · have hfil : cs.filter (fun e => e.phone == p) = [] := by
          rw [List.filter_eq_nil_iff]
          intro d hd hdp
          exact hc (List.any_eq_true.mpr ⟨d, hd, by simp_all⟩)
        rw [drop_duplicates_keep_last, if_neg hc, List.filter_cons, if_pos hp, hfil]
        simp [List.find?_cons, hp]
    · by_cases hc : cs.any (fun d => d.phone == c.phone) = true
      · rw [drop_duplicates_keep_last, if_pos hc, List.filter_cons, if_neg hp, ih]
      · rw [drop_duplicates_keep_last, if_neg hc, List.filter_cons, if_neg hp]
        simp only [List.find?_cons, hp]
        simpa using ih p

/-- C7: importing deduplicates by phone — the imported store has pairwise
distinct phones and keeps, for each phone, exactly the last occurrence of the
concatenated old-then-imported rows — while manually adding a contact never
deduplicates: the added phone's multiplicity simply grows by one. -/
theorem import_dedup_manual_add_duplicates :
    (∀ (old newRows : List Contact),
      ((import_from_excel old newRows).map Contact.phone).Nodup) ∧
    (∀ (old newRows : List Contact) (p : String),
      (import_from_excel old newRows).find? (fun c => c.phone == p)
        = ((old ++ newRows).filter (fun c => c.phone == p)).getLast?) ∧
    (∀ (contacts : List Contact) (name phone grp : String),
      ((add_contact contacts name phone grp).map Contact.phone).count phone
        = (contacts.map Contact.phone).count phone + 1) := by
  refine ⟨?_, ?_, ?_⟩
  · intro old newRows
    exact dropDup_phone_nodup (old ++ newRows)
  · intro old newRows p
    exact dropDup_find_eq_getLast (old ++ newRows) p
  · intro contacts name phone grp
    simp [add_contact, List.count_append]

/-- scheduler.py lines 17-34 (schedule_message): normalize the phone, call the
channel for the requested time, return True on success and False when the
channel raises — every exception is caught, none propagates. -/
def schedule_message (ch : ChannelResult) : Bool :=
  match ch with
  | ChannelResult.ok => true
  | ChannelResult.err _ => false

/-- What a registered job body hands back to the scheduling loop: keep the
job registered, or cancel it. -/
inductive JobReturn where
  | keep
  | cancel
deriving DecidableEq

/-- scheduler.py lines 68-71 and 87-89: the body of a daily or weekly job
calls schedule_message (which swallows every failure) and returns None — it
never returns the cancel sentinel, whatever the dispatch outcome. -/
def weeklyJobBody (ch : ChannelResult) : JobReturn :=
  let _ := schedule_message ch
  JobReturn.keep

/-- Minutes since an epoch whose minute 0 starts weekday 0; weekday of an
absolute minute count. -/
def weekdayOf (t : Nat) : Nat := t / 1440 % 7

/-- Minute of the day of an absolute minute count. -/
def timeOfDay (t : Nat) : Nat := t % 1440

/-- A recurring job of the schedule library's in-memory table: its period in
minutes, the next absolute minute at which it is due, and whether it is still
registered. -/
structure RecJob where
  period : Nat
  nextRun : Nat
  registered : Bool
deriving DecidableEq

/-- Modelled from the spec: the external schedule library (not part of src/)
computes, at registration time, the first absolute minute strictly after `now`
that falls on weekday `wd` at minute-of-day `tod`. -/
def nextWeeklyOccurrence (now wd tod : Nat) : Nat :=
  if now < now / 1440 * 1440 + (wd + 7 - now / 1440 % 7) % 7 * 1440 + tod then
    now / 1440 * 1440 + (wd + 7 - now / 1440 % 7) % 7 * 1440 + tod
  else
    now / 1440 * 1440 + (wd + 7 - now / 1440 % 7) % 7 * 1440 + tod + 10080

/-- Modelled from the spec: schedule.every().<weekday>.at(time) registration
of scheduler.py lines 77-95 — a weekly job due at the next matching
weekday-and-time, initially registered. -/
def mkWeeklyJob (now wd tod : Nat) : RecJob :=
  ⟨10080, nextWeeklyOccurrence now wd tod, true⟩

/-- Modelled from the spec: the first absolute minute strictly after `now`
with minute-of-day `tod`. -/
def nextDailyOccurrence (now tod : Nat) : Nat :=
  if now < now / 1440 * 1440 + tod then now / 1440 * 1440 + tod
  else now / 1440 * 1440 + tod + 1440

/-- Modelled from the spec: schedule.every().day.at(time) registration of
scheduler.py lines 53-74 — a daily job due at the next matching time. -/
def mkDailyJob (now tod : Nat) : RecJob :=
  ⟨1440, nextDailyOccurrence now tod, true⟩

/-- Modelled from the spec: one schedule.run_pending() poll tick at absolute
minute `now`.  A registered job whose due time has arrived fires: its body
runs with return value `ret`, its due time advances by one period, and it is
deregistered only when the body returns cancel.  Returns the updated job and
whether it fired. -/
def run_pending (j : RecJob) (now : Nat) (ret : JobReturn) : RecJob × Bool :=
  if j.registered && decide (j.nextRun ≤ now) then
    (⟨j.period, j.nextRun + j.period,
      match ret with
      | JobReturn.keep => j.registered
      | JobReturn.cancel => false⟩, true)
  else (j, false)

/-- C8: a weekly (or daily) job is registered for a strictly future due time
that falls exactly on the configured weekday and time-of-day, a poll tick
fires it exactly when that due time has arrived, and after any firing —
including one whose dispatch fails — the job stays registered with its due
time advanced by one period. -/
theorem weekly_schedule_waits_and_persists (now wd tod t : Nat) (j : RecJob)
    (ch : ChannelResult) (hwd : wd < 7) (htod : tod < 1440)
    (hreg : j.registered = true) :
    now < (mkWeeklyJob now wd tod).nextRun ∧
    weekdayOf (mkWeeklyJob now wd tod).nextRun = wd ∧
    timeOfDay (mkWeeklyJob now wd tod).nextRun = tod ∧
    now < (mkDailyJob now tod).nextRun ∧
    timeOfDay (mkDailyJob now tod).nextRun = tod ∧
    (run_pending (mkWeeklyJob now wd tod) t (weeklyJobBody ch)).2
      = decide ((mkWeeklyJob now wd tod).nextRun ≤ t) ∧
    (run_pending j t (weeklyJobBody ch)).1.registered = true ∧
    (run_pending j t (weeklyJobBody ch)).1
      = if j.nextRun ≤ t then RecJob.mk j.period (j.nextRun + j.period) true else j := by
  refine ⟨?_, ?_, ?_, ?_, ?_, ?_, ?_, ?_⟩
  · unfold mkWeeklyJob nextWeeklyOccurrence
    dsimp only
    split <;> omega
  · unfold mkWeeklyJob nextWeeklyOccurrence weekdayOf
    dsimp only
    split <;> omega
  · unfold mkWeeklyJob nextWeeklyOccurrence timeOfDay
    dsimp only
    split <;> omega
  · unfold mkDailyJob nextDailyOccurrence
    dsimp only
    split <;> omega
  · unfold mkDailyJob nextDailyOccurrence timeOfDay
    dsimp only
    split <;> omega
  · simp only [run_pending, mkWeeklyJob, weeklyJobBody]
    split <;> simp_all
  · simp [run_pending, weeklyJobBody, hreg]
    split <;> simp [hreg]
  · simp [run_pending, weeklyJobBody, hreg]
    split <;> simp

theorem weekly_schedule_waits_and_persists_witness :
    (3 < 7 ∧ 600 < 1440 ∧ (RecJob.mk 10080 5000 true).registered = true) ∧
    (0 < (mkWeeklyJob 0 3 600).nextRun ∧
     weekdayOf (mkWeeklyJob 0 3 600).nextRun = 3 ∧
     timeOfDay (mkWeeklyJob 0 3 600).nextRun = 600 ∧
     0 < (mkDailyJob 0 600).nextRun ∧
     timeOfDay (mkDailyJob 0 600).nextRun = 600 ∧
     (run_pending (mkWeeklyJob 0 3 600) 10080
         (weeklyJobBody (ChannelResult.err "boom"))).2
       = decide ((mkWeeklyJob 0 3 600).nextRun ≤ 10080) ∧
     (run_pending (RecJob.mk 10080 5000 true) 10080
         (weeklyJobBody (ChannelResult.err "boom"))).1.registered = true ∧
     (run_pending (RecJob.mk 10080 5000 true) 10080
         (weeklyJobBody (ChannelResult.err "boom"))).1
       = if (RecJob.mk 10080 5000 true).nextRun ≤ 10080 then
           RecJob.mk (RecJob.mk 10080 5000 true).period
             ((RecJob.mk 10080 5000 true).nextRun + (RecJob.mk 10080 5000 true).period) true
         else RecJob.mk 10080 5000 true) :=
  ⟨⟨by decide, by decide, by decide⟩,
   weekly_schedule_waits_and_persists 0 3 600 10080 (RecJob.mk 10080 5000 true)
     (ChannelResult.err "boom") (by decide) (by decide) (by decide)⟩

/-- C5: a raw phone starting with '+' is returned unchanged; any other raw
phone gets exactly the configured default country prefix prepended, with no
other change. -/
theorem normalize_phone_spec (countryCode raw : String) :
    (startsWithPlus raw = true → normalizePhone countryCode raw = raw) ∧
    (startsWithPlus raw = false → normalizePhone countryCode raw = countryCode ++ raw) := by
  constructor <;> intro h <;> simp [normalizePhone, h]

theorem normalize_phone_spec_witness :
    normalizePhone "+91" "+14155550100" = "+14155550100" ∧
    normalizePhone "+91" "9876543210" = "+91" ++ "9876543210" :=
  ⟨(normalize_phone_spec "+91" "+14155550100").1 (by decide),
   (normalize_phone_spec "+91" "9876543210").2 (by decide)⟩

/-- C4 (counterexample): at 23:59 the computed target is not 00:01 of the next
day — the hour is incremented past 23 without wrapping. -/
theorem plus_two_minutes_no_day_wrap : plusTwoMinutes 23 59 ≠ (0, 1) := by decide

/-- C4 (amended): when current minute + 2 exceeds 59 the target is
(hour + 1, minute + 2 - 60); in particular 23:59 yields hour 24, minute 1 —
the hour overflow past 23 is not wrapped to the next day. -/
theorem plus_two_minutes_overflow (hour minute : Nat) (h : 60 ≤ minute + 2) :
    plusTwoMinutes hour minute = (hour + 1, minute + 2 - 60) ∧
    plusTwoMinutes 23 59 = (24, 1) := by
  refine ⟨?_, by decide⟩
  simp [plusTwoMinutes, h]

theorem plus_two_minutes_overflow_witness :
    60 ≤ 59 + 2 ∧
    (plusTwoMinutes 23 59 = (23 + 1, 59 + 2 - 60) ∧ plusTwoMinutes 23 59 = (24, 1)) :=
  ⟨by decide, plus_two_minutes_overflow 23 59 (by decide)⟩

/-- The three-recipient scenario of the specification: A and C deliver, B's
channel call raises "session timeout". -/
def scenarioRows : List Row := [⟨some "A", "111"⟩, ⟨some "B", "222"⟩, ⟨some "C", "333"⟩]

/-- Per-attempt channel outcomes for the scenario: attempt 1 (recipient B)
fails, the others succeed. -/
def scenarioCh : Nat → ChannelResult
  | 1 => ChannelResult.err "session timeout"
  | _ => ChannelResult.ok

/-- C1 (counterexample): in the A/B/C scenario, B's detail entry is exactly
⟨"B", "222", "failed"⟩ — its status is the bare string "failed" and carries no
failure reason, so the detail entry does not show "FAILED" with reason
"session timeout" (the reason is only written to the message log). -/
theorem bulk_detail_lacks_reason :
    (send_bulk_messages (some scenarioRows) "+91" "Hello" false scenarioCh []).1.details[1]?
      = some ⟨"B", "222", "failed"⟩ ∧
    (Detail.mk "B" "222" "failed").status ≠ "FAILED: session timeout" := by
  decide

/-- C1 (amended): a bulk run always completes the whole batch — every
recipient, in order, gets a details entry whatever the outcomes are — and in
the A/B/C scenario (B fails with "session timeout") the run reports
success = 2, failed = 1, B's detail has status "failed" while the log records
"FAILED: session timeout" for B, and C is still attempted. -/
theorem bulk_partial_failure :
    (∀ (countryCode message : String) (personalize : Bool) (ch : Nat → ChannelResult)
        (rows : List Row) (log : List LogEntry),
      ((send_bulk_messages (some rows) countryCode message personalize ch log).1.details).map
          Detail.phone = rows.map Row.phone) ∧
    (send_bulk_messages (some scenarioRows) "+91" "Hello" false scenarioCh []).1.success = 2 ∧
    (send_bulk_messages (some scenarioRows) "+91" "Hello" false scenarioCh []).1.failed = 1 ∧
    (send_bulk_messages (some scenarioRows) "+91" "Hello" false scenarioCh []).1.details
      = [⟨"A", "111", "success"⟩, ⟨"B", "222", "failed"⟩, ⟨"C", "333", "success"⟩] ∧
    ((send_bulk_messages (some scenarioRows) "+91" "Hello" false scenarioCh []).2).map
        LogEntry.status = ["SUCCESS", "FAILED: session timeout", "SUCCESS"] := by
  refine ⟨?_, by decide, by decide, by decide, by decide⟩
  intro countryCode message personalize ch rows log
  simp [send_bulk_messages, bulkLoop_details_phone, emptyResults]

/-- C2: for every non-empty recipient sequence, the bulk outcome satisfies
success + failed = number of recipients, has exactly one detail per recipient,
and the details preserve the input order (their phones are the rows' phones in
order). -/
theorem run_bulk_outcome (countryCode message : String) (personalize : Bool)
    (ch : Nat → ChannelResult) (rows : List Row) (log : List LogEntry)
    (hne : rows ≠ []) :
    (send_bulk_messages (some rows) countryCode message personalize ch log).1.success
        + (send_bulk_messages (some rows) countryCode message personalize ch log).1.failed
      = rows.length ∧
    ((send_bulk_messages (some rows) countryCode message personalize ch log).1.details).length
      = rows.length ∧
    ((send_bulk_messages (some rows) countryCode message personalize ch log).1.details).map
        Detail.phone = rows.map Row.phone := by
  refine ⟨?_, ?_, ?_⟩
  · simp [send_bulk_messages, bulkLoop_counts, emptyResults]
  · have h := bulkLoop_details_phone countryCode message personalize ch rows 0 emptyResults log
    have h2 := congrArg List.length h
    simpa [send_bulk_messages, emptyResults] using h2
  · simp [send_bulk_messages, bulkLoop_details_phone, emptyResults]

theorem run_bulk_outcome_witness :
    ([(⟨some "A", "111"⟩ : Row)] ≠ []) ∧
    ((send_bulk_messages (some [⟨some "A", "111"⟩]) "+91" "Hi" false (fun _ => ChannelResult.ok)
        []).1.success
        + (send_bulk_messages (some [⟨some "A", "111"⟩]) "+91" "Hi" false
            (fun _ => ChannelResult.ok) []).1.failed
      = [(⟨some "A", "111"⟩ : Row)].length ∧
    ((send_bulk_messages (some [⟨some "A", "111"⟩]) "+91" "Hi" false (fun _ => ChannelResult.ok)
        []).1.details).length = [(⟨some "A", "111"⟩ : Row)].length ∧
    ((send_bulk_messages (some [⟨some "A", "111"⟩]) "+91" "Hi" false (fun _ => ChannelResult.ok)
        []).1.details).map Detail.phone = [(⟨some "A", "111"⟩ : Row)].map Row.phone) :=
  ⟨by decide,
   run_bulk_outcome "+91" "Hi" false (fun _ => ChannelResult.ok) [⟨some "A", "111"⟩] []
     (by decide)⟩

/-- C3: every single dispatch, success or failure, appends exactly one log
entry — status "SUCCESS" on success and "FAILED: reason" on failure — and a
bulk run over N recipients grows the log by exactly N entries. -/
theorem dispatch_always_logs :
    (∀ (ch : ChannelResult) (countryCode phone message : String) (log : List LogEntry),
      ((send_message ch countryCode phone message log).2).length = log.length + 1) ∧
    (∀ (countryCode phone message : String) (log : List LogEntry),
      ((send_message ChannelResult.ok countryCode phone message log).2).map LogEntry.status
        = log.map LogEntry.status ++ ["SUCCESS"]) ∧
    (∀ (reason countryCode phone message : String) (log : List LogEntry),
      ((send_message (ChannelResult.err reason) countryCode phone message log).2).map
          LogEntry.status = log.map LogEntry.status ++ ["FAILED: " ++ reason]) ∧
    (∀ (countryCode message : String) (personalize : Bool) (ch : Nat → ChannelResult)
        (rows : List Row) (log : List LogEntry),
      ((send_bulk_messages (some rows) countryCode message personalize ch log).2).length
        = log.length + rows.length) := by
  refine ⟨?_, ?_, ?_, ?_⟩
  · intro ch countryCode phone message log
    cases ch <;> simp [send_message, log_message]
  · intro countryCode phone message log
    simp [send_message, log_message]
  · intro reason countryCode phone message log
    simp [send_message, log_message]
  · intro countryCode message personalize ch rows log
    simp [send_bulk_messages, bulkLoop_log_length]

/-- C6: in a bulk run the display name of each detail entry is the recipient's
name when present and "Friend" otherwise, and the message text that reaches
the channel and the log is the template with every "{name}" occurrence
replaced by the resolved name when personalize is set, and the verbatim
template otherwise. -/
theorem bulk_personalization (countryCode message : String) (personalize : Bool)
    (ch : Nat → ChannelResult) (rows : List Row) (log : List LogEntry) :
    ((send_bulk_messages (some rows) countryCode message personalize ch log).1.details).map
        Detail.name = rows.map (fun r => r.name.getD "Friend") ∧
    ((send_bulk_messages (some rows) countryCode message personalize ch log).2).map
        LogEntry.message
      = log.map LogEntry.message
        ++ rows.map (fun r =>
            truncate50 (if personalize then pyReplace message "{name}" (r.name.getD "Friend")
                        else message) ++ "...") := by
  constructor
  · simp [send_bulk_messages, bulkLoop_details_name, emptyResults]
  · simp [send_bulk_messages, bulkLoop_log_messages, emptyResults]

/-- Helper: when the pattern does not occur in the character list,
left-to-right replacement leaves the list unchanged, for any fuel. -/
theorem listReplaceFuel_of_not_contains (pat rep : List Char) :
    ∀ (fuel : Nat) (l : List Char), containsSeq pat l = false →
      listReplaceFuel pat rep fuel l = l := by
  intro fuel
  induction fuel with
  | zero => intro l _; rfl
  | succ n ih =>
    intro l h
    cases l with
    | nil => rfl
    | cons c cs =>
      simp only [containsSeq, Bool.or_eq_false_iff] at h
      simp [listReplaceFuel, h.1, ih cs h.2]

/-- C9: personalization is idempotent on already-substituted text — if the
message contains no remaining "{name}" token, applying the substitution again
returns it unchanged. -/
theorem personalize_idempotent (message name : String)
    (h : hasNameToken message = false) :
    pyReplace message "{name}" name = message := by
  unfold hasNameToken at h
  unfold pyReplace
  rw [listReplaceFuel_of_not_contains _ _ _ _ h]
  exact String.asString_toList message

theorem personalize_idempotent_witness :
    hasNameToken "Hello Alice, welcome!" = false ∧
    pyReplace "Hello Alice, welcome!" "{name}" "Alice" = "Hello Alice, welcome!" :=
  ⟨by decide, personalize_idempotent "Hello Alice, welcome!" "Alice" (by decide)⟩

/-- C10: when loading the contacts file fails, send_bulk_messages returns the
empty results (0 successes, 0 failures, no details), leaves the log untouched,
and consults no channel outcome at all. -/
theorem bulk_load_failure_empty (countryCode message : String) (personalize : Bool)
    (ch ch2 : Nat → ChannelResult) (log : List LogEntry) :
    send_bulk_messages none countryCode message personalize ch log = (⟨0, 0, []⟩, log) ∧
    send_bulk_messages none countryCode message personalize ch log
      = send_bulk_messages none countryCode message personalize ch2 log :=
  ⟨rfl, rfl⟩
